import Mathlib

/-!
Shallow embedding of the 2048 board engine from `src/game2048/src/grid.rs`
(repository rocket-2048).  Cell values are `u64` in the source; gameplay keeps
them far below `2^64`, so they are modelled as `Nat`.  The two random draws of
`insert_random_cell` (the Bernoulli(0.9) value roll of `rand::Bernoulli` and
the uniform choice of `SliceRandom::choose`) are modelled as explicit oracle
arguments: `roll : Bool` (`true` is the probability-0.9 outcome giving value 2)
and `choice : Nat` (reduced modulo the number of empty cells to pick one).
-/

set_option maxHeartbeats 2000000

namespace Rocket2048

/-- One row of the 4x4 grid: `[u64; 4]`. -/
structure Row where
  x0 : Nat
  x1 : Nat
  x2 : Nat
  x3 : Nat
deriving DecidableEq

/-- `row[i]`; out-of-range reads (never performed by the code) give 0. -/
def Row.get (r : Row) (i : Nat) : Nat :=
  match i with
  | 0 => r.x0
  | 1 => r.x1
  | 2 => r.x2
  | 3 => r.x3
  | _ + 4 => 0

/-- `row[i] = v`; out-of-range writes (never performed by the code) are no-ops. -/
def Row.set (r : Row) (i : Nat) (v : Nat) : Row :=
  match i with
  | 0 => { r with x0 := v }
  | 1 => { r with x1 := v }
  | 2 => { r with x2 := v }
  | 3 => { r with x3 := v }
  | _ + 4 => r

/-- `row.reverse()` from `Grid::rotate`. -/
def Row.reverse (r : Row) : Row := ⟨r.x3, r.x2, r.x1, r.x0⟩

/-- The 4x4 cell matrix `[[u64; 4]; 4]`. -/
structure Cells where
  row0 : Row
  row1 : Row
  row2 : Row
  row3 : Row
deriving DecidableEq

/-- `cells[i]`; out-of-range reads give the zero row. -/
def Cells.getRow (c : Cells) (i : Nat) : Row :=
  match i with
  | 0 => c.row0
  | 1 => c.row1
  | 2 => c.row2
  | 3 => c.row3
  | _ + 4 => ⟨0, 0, 0, 0⟩

/-- `cells[i] = r`; out-of-range writes are no-ops. -/
def Cells.setRow (c : Cells) (i : Nat) (r : Row) : Cells :=
  match i with
  | 0 => { c with row0 := r }
  | 1 => { c with row1 := r }
  | 2 => { c with row2 := r }
  | 3 => { c with row3 := r }
  | _ + 4 => c

/-- `cells[i][j]`. -/
def Cells.getCell (c : Cells) (i j : Nat) : Nat := (c.getRow i).get j

/-- `cells[i][j] = v`. -/
def Cells.setCell (c : Cells) (i j : Nat) (v : Nat) : Cells :=
  c.setRow i ((c.getRow i).set j v)

/-- The `while` loop of `Grid::mov_all_cells_to_the_side`, with the bound
`3 - index` on the remaining iterations made explicit as structural fuel
(when `index < 3` the fuel is positive, so the guard is exactly the loop's
`index < 3 && row[index + 1] == 0`). -/
def slideGo (r : Row) : Nat → Nat → Nat
  | index, 0 => index
  | index, fuel + 1 =>
    if index < 3 then
      if r.get (index + 1) = 0 then slideGo r (index + 1) fuel else index
    else index

/-- The `while` loop of `Grid::mov_all_cells_to_the_side`: starting from
`index = j`, advance while `index < 3` and `row[index + 1] == 0`. -/
def slideIndex (r : Row) (index : Nat) : Nat := slideGo r index (3 - index)

/-- One iteration of the outer `for j in (0..3).rev()` loop of
`Grid::mov_all_cells_to_the_side`: take `row[j]` out, slide it to the
right past zeros, and put it back. -/
def compactStep (row : Row) (j : Nat) : Row :=
  let temp := row.get j
  let row1 := row.set j 0
  let index := slideIndex row1 j
  row1.set index temp

/-- The per-row body of `Grid::mov_all_cells_to_the_side`
(`for j in (0..3).rev()`, i.e. j = 2, 1, 0). -/
def compactRow (row : Row) : Row := List.foldl compactStep row [2, 1, 0]

/-- `Grid::mov_all_cells_to_the_side`: compact every row to the right. -/
def mov_all_cells_to_the_side (c : Cells) : Cells :=
  ⟨compactRow c.row0, compactRow c.row1, compactRow c.row2, compactRow c.row3⟩

/-- One iteration of the merge loop of `Grid::mov` at index `j`
(`if new_row[j] == old_row[j - 1] { new_row[j] *= 2; score += new_row[j];
new_row[j - 1] = 0; }`).  `acc` carries the evolving `new_row` and the
accumulated `score_increase`; `old` is the row as at the start of the pass. -/
def mergeStep (old : Row) (acc : Row × Nat) (j : Nat) : Row × Nat :=
  let new := acc.1
  if new.get j = old.get (j - 1) then
    let v := new.get j * 2
    ((new.set j v).set (j - 1) 0, acc.2 + v)
  else acc

/-- The merge pass of `Grid::mov` on one row (`for j in (1..=3).rev()`,
i.e. j = 3, 2, 1), returning the new row and the score increase. -/
def mergeRow (old : Row) : Row × Nat := List.foldl (mergeStep old) (old, 0) [3, 2, 1]

/-- `Grid::mov`: compact right, merge each row, compact right again;
returns the new cells and the score increase. -/
def mov (c : Cells) : Cells × Nat :=
  let c1 := mov_all_cells_to_the_side c
  let p0 := mergeRow c1.row0
  let p1 := mergeRow c1.row1
  let p2 := mergeRow c1.row2
  let p3 := mergeRow c1.row3
  (mov_all_cells_to_the_side ⟨p0.1, p1.1, p2.1, p3.1⟩, p0.2 + p1.2 + p2.2 + p3.2)

/-- The full reduction of one row: what `mov` does to each row. -/
def rowReduce (r : Row) : Row := compactRow (mergeRow (compactRow r)).1

/-- One swap of the transpose loop of `Grid::rotate`:
`temp = cells[i][j]; cells[i][j] = cells[j][i]; cells[j][i] = temp`. -/
def swapStep (c : Cells) (p : Nat × Nat) : Cells :=
  let temp := c.getCell p.1 p.2
  let c1 := c.setCell p.1 p.2 (c.getCell p.2 p.1)
  c1.setCell p.2 p.1 temp

/-- `Grid::rotate`: transpose in place (`for i in 0..4 { for j in i..4 }`)
then reverse every row — a clockwise quarter turn. -/
def rotate (c : Cells) : Cells :=
  let t := List.foldl swapStep c
    [(0, 0), (0, 1), (0, 2), (0, 3), (1, 1), (1, 2), (1, 3), (2, 2), (2, 3), (3, 3)]
  ⟨t.row0.reverse, t.row1.reverse, t.row2.reverse, t.row3.reverse⟩

/-- `Grid::rotate_times`: apply `rotate` n times. -/
def rotate_times (c : Cells) : Nat → Cells
  | 0 => c
  | n + 1 => rotate (rotate_times c n)

/-- The `Move` enum. -/
inductive Move where
  | Left
  | Right
  | Up
  | Down
deriving DecidableEq

/-- `Move::get_number`: the rotation count of each direction. -/
def Move.get_number : Move → Nat
  | .Right => 0
  | .Up => 1
  | .Left => 2
  | .Down => 3

/-- The `MOVES` constant. -/
def MOVES : List Move := [.Left, .Right, .Up, .Down]

/-- The `GameStatus` enum. -/
inductive GameStatus where
  | Ok
  | InvalidMove
  | Lost
deriving DecidableEq

/-- The `Grid` struct: cells plus score. -/
structure Grid where
  cells : Cells
  score : Nat
deriving DecidableEq

/-- `Grid::new`. -/
def Grid.new (c : Cells) : Grid := ⟨c, 0⟩

/-- `Grid::get_score`. -/
def Grid.get_score (g : Grid) : Nat := g.score

/-- `Grid::handle_move`: rotate, reduce rightward, rotate back. -/
def handle_move (c : Cells) (rotation : Nat) : Cells × Nat :=
  let rotated := rotate_times c rotation
  let p := mov rotated
  (rotate_times p.1 (4 - rotation), p.2)

/-- `Grid::make_move`. -/
def make_move (c : Cells) (m : Move) : Cells × Nat := handle_move c m.get_number

/-- The 16 index pairs `(i, j)` in the order the loops of
`Grid::get_empty_cells` visit them. -/
def allPairs : List (Nat × Nat) :=
  [(0, 0), (0, 1), (0, 2), (0, 3),
   (1, 0), (1, 1), (1, 2), (1, 3),
   (2, 0), (2, 1), (2, 2), (2, 3),
   (3, 0), (3, 1), (3, 2), (3, 3)]

/-- `Grid::get_empty_cells`: coordinates of the zero cells, row-major. -/
def get_empty_cells (c : Cells) : List (Nat × Nat) :=
  allPairs.filter (fun p => c.getCell p.1 p.2 == 0)

/-- The coordinates of the non-zero cells, row-major (complement of
`get_empty_cells`, used to state cell counts). -/
def occupied_cells (c : Cells) : List (Nat × Nat) :=
  allPairs.filter (fun p => c.getCell p.1 p.2 != 0)

/-- `Grid::is_board_full`. -/
def is_board_full (c : Cells) : Bool :=
  [c.row0, c.row1, c.row2, c.row3].all (fun r => [r.x0, r.x1, r.x2, r.x3].all (fun v => v != 0))

/-- `Grid::move_is_valid`: the move changes at least one cell. -/
def move_is_valid (g : Grid) (m : Move) : Bool :=
  decide (g.cells ≠ (make_move g.cells m).1)

/-- `Grid::has_player_lost`: no direction gives a valid move. -/
def has_player_lost (g : Grid) : Bool :=
  !(MOVES.any fun m => move_is_valid g m)

/-- `Grid::insert_random_cell` with the two random draws passed in as oracle
arguments (`roll = true` is the Bernoulli(0.9) outcome, giving value 2;
`choice` selects an empty cell by index).  On a full board this is a no-op.
The `.getD` default is unreachable: the Rust code `unwrap`s after checking
the board is not full. -/
def insert_random_cell (g : Grid) (roll : Bool) (choice : Nat) : Grid :=
  if is_board_full g.cells then g
  else
    let val : Nat := if roll then 2 else 4
    let empty_cells := get_empty_cells g.cells
    let p := empty_cells.getD (choice % empty_cells.length) (0, 0)
    { g with cells := g.cells.setCell p.1 p.2 val }

/-- `Grid::new_random`: empty board, score 0, two random insertions. -/
def new_random (roll1 : Bool) (choice1 : Nat) (roll2 : Bool) (choice2 : Nat) : Grid :=
  let g := Grid.new ⟨⟨0, 0, 0, 0⟩, ⟨0, 0, 0, 0⟩, ⟨0, 0, 0, 0⟩, ⟨0, 0, 0, 0⟩⟩
  let g1 := insert_random_cell g roll1 choice1
  insert_random_cell g1 roll2 choice2

/-- `Grid::attempt` (with the spawn's random draws as oracle arguments);
returns the status together with the updated grid (`&mut self` in Rust). -/
def attempt (g : Grid) (m : Move) (roll : Bool) (choice : Nat) : GameStatus × Grid :=
  if !(move_is_valid g m) then (GameStatus.InvalidMove, g)
  else
    let p := make_move g.cells m
    let g1 : Grid := { cells := p.1, score := g.score + p.2 }
    let g2 := insert_random_cell g1 roll choice
    if has_player_lost g2 then (GameStatus.Lost, g2) else (GameStatus.Ok, g2)

/-- Sum of a row's values. -/
def Row.sum (r : Row) : Nat := r.x0 + r.x1 + r.x2 + r.x3

/-- Sum of all 16 cell values. -/
def Cells.sum (c : Cells) : Nat := c.row0.sum + c.row1.sum + c.row2.sum + c.row3.sum

/-- A predicate holding of each of a row's four values. -/
def RowAll (P : Nat → Prop) (r : Row) : Prop := P r.x0 ∧ P r.x1 ∧ P r.x2 ∧ P r.x3

/-- A predicate holding of each of the 16 cell values. -/
def CellsAll (P : Nat → Prop) (c : Cells) : Prop :=
  RowAll P c.row0 ∧ RowAll P c.row1 ∧ RowAll P c.row2 ∧ RowAll P c.row3

/-- Grids reachable from `new_random` by any sequence of `attempt` calls,
under any outcomes of the random draws. -/
inductive Reachable : Grid → Prop where
  | init (roll1 : Bool) (choice1 : Nat) (roll2 : Bool) (choice2 : Nat) :
      Reachable (new_random roll1 choice1 roll2 choice2)
  | step (g : Grid) (m : Move) (roll : Bool) (choice : Nat) :
      Reachable g → Reachable (attempt g m roll choice).2

/-- 1 if the value is zero (an empty cell), else 0. -/
def zeroInd (v : Nat) : Nat := if v == 0 then 1 else 0

/-- 1 if the value is non-zero (an occupied cell), else 0. -/
def nonzeroInd (v : Nat) : Nat := if v != 0 then 1 else 0

/-! ### Row-level lemmas about compaction and merging -/

/-- Compaction preserves the sum of a row. -/
theorem compactRow_sum (r : Row) : (compactRow r).sum = r.sum := by
  obtain ⟨a, b, c, d⟩ := r
  by_cases ha : a = 0 <;> by_cases hb : b = 0 <;> by_cases hc : c = 0 <;> by_cases hd : d = 0 <;>
    simp [compactRow, compactStep, slideIndex, slideGo, List.foldl, Row.get, Row.set, Row.sum,
      ha, hb, hc, hd]

/-- The merge pass preserves the sum of a row. -/
theorem mergeRow_sum (r : Row) : (mergeRow r).1.sum = r.sum := by
  obtain ⟨a, b, c, d⟩ := r
  simp only [mergeRow, List.foldl, mergeStep]
  split_ifs <;> (try simp only [Row.get, Row.set, Row.sum] at *) <;> omega

/-- The full row reduction preserves the sum of a row. -/
theorem rowReduce_sum (r : Row) : (rowReduce r).sum = r.sum := by
  unfold rowReduce
  rw [compactRow_sum, mergeRow_sum, compactRow_sum]

/-- A full row is unchanged by compaction. -/
theorem compactRow_of_full (r : Row) (h : RowAll (fun v => v ≠ 0) r) : compactRow r = r := by
  obtain ⟨a, b, c, d⟩ := r
  obtain ⟨ha, hb, hc, hd⟩ := h
  simp only [ne_eq] at ha hb hc hd
  simp [compactRow, compactStep, slideIndex, slideGo, List.foldl, Row.get, Row.set,
    ha, hb, hc, hd]

/-- If a compacted row is full, the row itself was full. -/
theorem full_of_compactRow_full (r : Row) (h : RowAll (fun v => v ≠ 0) (compactRow r)) :
    RowAll (fun v => v ≠ 0) r := by
  obtain ⟨a, b, c, d⟩ := r
  by_cases ha : a = 0 <;> by_cases hb : b = 0 <;> by_cases hc : c = 0 <;> by_cases hd : d = 0 <;>
    simp_all [compactRow, compactStep, slideIndex, slideGo, List.foldl, Row.get, Row.set, RowAll]

/-- If the result of the merge pass is full, the pass merged nothing. -/
theorem mergeRow_of_full (r : Row) (h : RowAll (fun v => v ≠ 0) (mergeRow r).1) :
    (mergeRow r).1 = r := by
  obtain ⟨a, b, c, d⟩ := r
  simp only [mergeRow, List.foldl, mergeStep] at *
  split_ifs at * <;> (try simp only [Row.get, Row.set, RowAll, ne_eq] at *) <;> tauto

/-- If the full row reduction leaves a full row, it changed nothing. -/
theorem rowReduce_of_full (r : Row) (h : RowAll (fun v => v ≠ 0) (rowReduce r)) :
    rowReduce r = r := by
  unfold rowReduce at h ⊢
  have h2 : RowAll (fun v => v ≠ 0) (mergeRow (compactRow r)).1 :=
    full_of_compactRow_full _ h
  have e2 : (mergeRow (compactRow r)).1 = compactRow r := mergeRow_of_full _ h2
  rw [e2] at h2 ⊢
  have h3 : RowAll (fun v => v ≠ 0) r := full_of_compactRow_full _ h2
  rw [compactRow_of_full _ h3, compactRow_of_full _ h3]

/-- Compaction preserves any property that holds of every entry and of 0. -/
theorem compactRow_rowAll (P : Nat → Prop) (h0 : P 0) (r : Row) (h : RowAll P r) :
    RowAll P (compactRow r) := by
  obtain ⟨a, b, c, d⟩ := r
  obtain ⟨h1, h2, h3, h4⟩ := h
  by_cases ha : a = 0 <;> by_cases hb : b = 0 <;> by_cases hc : c = 0 <;> by_cases hd : d = 0 <;>
    simp [compactRow, compactStep, slideIndex, slideGo, List.foldl, Row.get, Row.set, RowAll,
      ha, hb, hc, hd] <;> tauto

/-- The merge pass preserves any property that holds of every entry, of 0,
and is closed under doubling. -/
theorem mergeRow_rowAll (P : Nat → Prop) (h0 : P 0) (hdbl : ∀ x, P x → P (x * 2)) (r : Row)
    (h : RowAll P r) : RowAll P (mergeRow r).1 := by
  obtain ⟨a, b, c, d⟩ := r
  obtain ⟨h1, h2, h3, h4⟩ := h
  simp only [mergeRow, List.foldl, mergeStep]
  split_ifs <;> (try simp only [Row.get, Row.set, RowAll] at *) <;> subst_vars <;>
    refine ⟨?_, ?_, ?_, ?_⟩ <;>
    first
      | assumption
      | exact hdbl _ h1
      | exact hdbl _ h2
      | exact hdbl _ h3
      | exact hdbl _ h4

/-- The full row reduction preserves any property that holds of every entry,
of 0, and is closed under doubling. -/
theorem rowReduce_rowAll (P : Nat → Prop) (h0 : P 0) (hdbl : ∀ x, P x → P (x * 2)) (r : Row)
    (h : RowAll P r) : RowAll P (rowReduce r) := by
  unfold rowReduce
  exact compactRow_rowAll P h0 _ (mergeRow_rowAll P h0 hdbl _ (compactRow_rowAll P h0 _ h))

/-! ### Cells-level lemmas: rotation, `mov`, `make_move` -/

/-- The simp set that evaluates `rotate` on a destructured board. -/
theorem rotate_explicit (r00 r01 r02 r03 r10 r11 r12 r13 r20 r21 r22 r23 r30 r31 r32 r33 : Nat) :
    rotate ⟨⟨r00, r01, r02, r03⟩, ⟨r10, r11, r12, r13⟩, ⟨r20, r21, r22, r23⟩,
        ⟨r30, r31, r32, r33⟩⟩ =
      ⟨⟨r30, r20, r10, r00⟩, ⟨r31, r21, r11, r01⟩, ⟨r32, r22, r12, r02⟩,
        ⟨r33, r23, r13, r03⟩⟩ := rfl

/-- Rotating four times is the identity. -/
theorem rotate_times_four (c : Cells) : rotate_times c 4 = c := by
  obtain ⟨⟨a0, a1, a2, a3⟩, ⟨b0, b1, b2, b3⟩, ⟨c0, c1, c2, c3⟩, ⟨d0, d1, d2, d3⟩⟩ := c
  rfl

/-- `rotate_times` splits over addition of rotation counts. -/
theorem rotate_times_add (c : Cells) (m n : Nat) :
    rotate_times c (m + n) = rotate_times (rotate_times c m) n := by
  induction n with
  | zero => rfl
  | succ k ih => rw [← Nat.add_assoc, rotate_times, rotate_times, ih]

/-- Rotation preserves the sum of the board. -/
theorem rotate_sum (c : Cells) : (rotate c).sum = c.sum := by
  obtain ⟨⟨a0, a1, a2, a3⟩, ⟨b0, b1, b2, b3⟩, ⟨c0, c1, c2, c3⟩, ⟨d0, d1, d2, d3⟩⟩ := c
  rw [rotate_explicit]
  simp [Cells.sum, Row.sum]
  omega

/-- Iterated rotation preserves the sum of the board. -/
theorem rotate_times_sum (c : Cells) (n : Nat) : (rotate_times c n).sum = c.sum := by
  induction n with
  | zero => rfl
  | succ k ih => rw [rotate_times, rotate_sum, ih]

/-- Rotation permutes the cells, so a pointwise property is preserved both ways. -/
theorem rotate_cellsAll (P : Nat → Prop) (c : Cells) :
    CellsAll P (rotate c) ↔ CellsAll P c := by
  obtain ⟨⟨a0, a1, a2, a3⟩, ⟨b0, b1, b2, b3⟩, ⟨c0, c1, c2, c3⟩, ⟨d0, d1, d2, d3⟩⟩ := c
  rw [rotate_explicit]
  simp only [CellsAll, RowAll]
  tauto

/-- Iterated rotation preserves a pointwise property both ways. -/
theorem rotate_times_cellsAll (P : Nat → Prop) (c : Cells) (n : Nat) :
    CellsAll P (rotate_times c n) ↔ CellsAll P c := by
  induction n with
  | zero => exact Iff.rfl
  | succ k ih => rw [rotate_times, rotate_cellsAll]; exact ih

/-- Folding the per-row composition of `mov` into `rowReduce`. -/
theorem rowReduce_def (r : Row) : compactRow (mergeRow (compactRow r)).1 = rowReduce r := rfl

/-- `mov` preserves the sum of the board. -/
theorem mov_sum (c : Cells) : (mov c).1.sum = c.sum := by
  simp only [mov, mov_all_cells_to_the_side, Cells.sum, compactRow_sum, mergeRow_sum]

/-- `mov` preserves a pointwise property closed under 0 and doubling. -/
theorem mov_cellsAll (P : Nat → Prop) (h0 : P 0) (hdbl : ∀ x, P x → P (x * 2)) (c : Cells)
    (h : CellsAll P c) : CellsAll P (mov c).1 := by
  obtain ⟨h1, h2, h3, h4⟩ := h
  simp only [mov, mov_all_cells_to_the_side, CellsAll]
  exact ⟨compactRow_rowAll P h0 _ (mergeRow_rowAll P h0 hdbl _ (compactRow_rowAll P h0 _ h1)),
    compactRow_rowAll P h0 _ (mergeRow_rowAll P h0 hdbl _ (compactRow_rowAll P h0 _ h2)),
    compactRow_rowAll P h0 _ (mergeRow_rowAll P h0 hdbl _ (compactRow_rowAll P h0 _ h3)),
    compactRow_rowAll P h0 _ (mergeRow_rowAll P h0 hdbl _ (compactRow_rowAll P h0 _ h4))⟩

/-- If `mov` leaves a full board, it changed nothing. -/
theorem mov_of_full (c : Cells) (h : CellsAll (fun v => v ≠ 0) (mov c).1) : (mov c).1 = c := by
  obtain ⟨r0, r1, r2, r3⟩ := c
  simp only [mov, mov_all_cells_to_the_side, CellsAll, rowReduce_def] at h ⊢
  obtain ⟨h1, h2, h3, h4⟩ := h
  simp only [Cells.mk.injEq]
  exact ⟨rowReduce_of_full _ h1, rowReduce_of_full _ h2, rowReduce_of_full _ h3,
    rowReduce_of_full _ h4⟩

/-- `is_board_full` tests that every cell is non-zero. -/
theorem is_board_full_iff (c : Cells) :
    is_board_full c = true ↔ CellsAll (fun v => v ≠ 0) c := by
  obtain ⟨⟨a0, a1, a2, a3⟩, ⟨b0, b1, b2, b3⟩, ⟨c0, c1, c2, c3⟩, ⟨d0, d1, d2, d3⟩⟩ := c
  simp [is_board_full, CellsAll, RowAll]

/-- `make_move` preserves the sum of the board (the combined value of every
merged pair stays on the board). -/
theorem make_move_sum (c : Cells) (m : Move) : (make_move c m).1.sum = c.sum := by
  cases m <;>
    simp only [make_move, handle_move, Move.get_number, rotate_times_sum, mov_sum]

/-- `make_move` preserves a pointwise property closed under 0 and doubling. -/
theorem make_move_cellsAll (P : Nat → Prop) (h0 : P 0) (hdbl : ∀ x, P x → P (x * 2)) (c : Cells)
    (m : Move) (h : CellsAll P c) : CellsAll P (make_move c m).1 := by
  cases m <;>
    · simp only [make_move, handle_move, Move.get_number]
      exact (rotate_times_cellsAll P _ _).mpr
        (mov_cellsAll P h0 hdbl _ ((rotate_times_cellsAll P _ _).mpr h))

/-- If the board after `make_move` is full, the move changed nothing. -/
theorem make_move_of_full (c : Cells) (m : Move)
    (h : is_board_full (make_move c m).1 = true) : (make_move c m).1 = c := by
  rw [is_board_full_iff] at h
  cases m <;>
    · simp only [make_move, handle_move, Move.get_number] at h ⊢
      rw [mov_of_full _ ((rotate_times_cellsAll _ _ _).mp h)]
      rw [← rotate_times_add]
      exact rotate_times_four c

/-! ### Cell access, counting and `insert_random_cell` -/

/-- Reading a row after writing one entry. -/
theorem Row.get_set (r : Row) (j j' v : Nat) (hj : j < 4) (hj' : j' < 4) :
    (r.set j v).get j' = if j = j' then v else r.get j' := by
  interval_cases j <;> interval_cases j' <;> simp [Row.get, Row.set]

/-- Reading a row of the board after replacing one row. -/
theorem Cells.getRow_setRow (c : Cells) (i i' : Nat) (r : Row) (hi : i < 4) (hi' : i' < 4) :
    (c.setRow i r).getRow i' = if i = i' then r else c.getRow i' := by
  interval_cases i <;> interval_cases i' <;> simp [Cells.getRow, Cells.setRow]

/-- Reading a cell after writing one cell: only the written cell changes. -/
theorem Cells.getCell_setCell (c : Cells) (i j i' j' v : Nat)
    (hi : i < 4) (hj : j < 4) (hi' : i' < 4) (hj' : j' < 4) :
    (c.setCell i j v).getCell i' j' = if i = i' ∧ j = j' then v else c.getCell i' j' := by
  unfold Cells.setCell Cells.getCell
  rw [Cells.getRow_setRow c i i' _ hi hi']
  by_cases hii : i = i'
  · subst hii
    rw [if_pos rfl, Row.get_set _ _ _ _ hj hj']
    by_cases hjj : j = j' <;> simp [hjj]
  · simp [hii]

/-- Writing one cell changes the board sum by the new value minus the old. -/
theorem Cells.sum_setCell (c : Cells) (i j v : Nat) (hi : i < 4) (hj : j < 4) :
    (c.setCell i j v).sum + c.getCell i j = c.sum + v := by
  obtain ⟨⟨a0, a1, a2, a3⟩, ⟨b0, b1, b2, b3⟩, ⟨c0, c1, c2, c3⟩, ⟨d0, d1, d2, d3⟩⟩ := c
  interval_cases i <;> interval_cases j <;>
    simp [Cells.setCell, Cells.setRow, Cells.getRow, Cells.getCell, Row.set, Row.get,
      Cells.sum, Row.sum] <;> omega

/-- Writing a value satisfying `P` preserves a pointwise property
(any indices, in range or not). -/
theorem Cells.cellsAll_setCell (P : Nat → Prop) (c : Cells) (i j v : Nat)
    (hP : P v) (h : CellsAll P c) : CellsAll P (c.setCell i j v) := by
  obtain ⟨r0, r1, r2, r3⟩ := c
  rcases i with _ | _ | _ | _ | i <;> rcases j with _ | _ | _ | _ | j <;>
    · obtain ⟨⟨e0, e1, e2, e3⟩, ⟨f0, f1, f2, f3⟩, ⟨g0, g1, g2, g3⟩, ⟨k0, k1, k2, k3⟩⟩ := h
      obtain ⟨a0, a1, a2, a3⟩ := r0
      obtain ⟨b0, b1, b2, b3⟩ := r1
      obtain ⟨c0, c1, c2, c3⟩ := r2
      obtain ⟨d0, d1, d2, d3⟩ := r3
      simp_all [Cells.setCell, Cells.setRow, Cells.getRow, Row.set, CellsAll, RowAll]

/-- The length of a filter over a cons. -/
theorem length_filter_cons {α : Type} (p : α → Bool) (x : α) (xs : List α) :
    (List.filter p (x :: xs)).length = (if p x then 1 else 0) + (List.filter p xs).length := by
  by_cases h : p x <;> simp [List.filter_cons, h, Nat.add_comm]

/-- The number of empty cells as a sum of indicators. -/
theorem get_empty_cells_length_eq
    (a0 a1 a2 a3 b0 b1 b2 b3 c0 c1 c2 c3 d0 d1 d2 d3 : Nat) :
    (get_empty_cells ⟨⟨a0, a1, a2, a3⟩, ⟨b0, b1, b2, b3⟩, ⟨c0, c1, c2, c3⟩,
        ⟨d0, d1, d2, d3⟩⟩).length =
      zeroInd a0 + zeroInd a1 + zeroInd a2 + zeroInd a3 +
      (zeroInd b0 + zeroInd b1 + zeroInd b2 + zeroInd b3) +
      (zeroInd c0 + zeroInd c1 + zeroInd c2 + zeroInd c3) +
      (zeroInd d0 + zeroInd d1 + zeroInd d2 + zeroInd d3) := by
  simp only [get_empty_cells, allPairs, length_filter_cons, List.filter_nil, List.length_nil,
    Cells.getCell, Cells.getRow, Row.get, zeroInd]
  omega

/-- The number of occupied cells as a sum of indicators. -/
theorem occupied_cells_length_eq
    (a0 a1 a2 a3 b0 b1 b2 b3 c0 c1 c2 c3 d0 d1 d2 d3 : Nat) :
    (occupied_cells ⟨⟨a0, a1, a2, a3⟩, ⟨b0, b1, b2, b3⟩, ⟨c0, c1, c2, c3⟩,
        ⟨d0, d1, d2, d3⟩⟩).length =
      nonzeroInd a0 + nonzeroInd a1 + nonzeroInd a2 + nonzeroInd a3 +
      (nonzeroInd b0 + nonzeroInd b1 + nonzeroInd b2 + nonzeroInd b3) +
      (nonzeroInd c0 + nonzeroInd c1 + nonzeroInd c2 + nonzeroInd c3) +
      (nonzeroInd d0 + nonzeroInd d1 + nonzeroInd d2 + nonzeroInd d3) := by
  simp only [occupied_cells, allPairs, length_filter_cons, List.filter_nil, List.length_nil,
    Cells.getCell, Cells.getRow, Row.get, nonzeroInd]
  omega

/-- Writing a non-zero value into an empty in-range cell: one fewer empty
cell, one more occupied cell. -/
theorem counts_setCell (c : Cells) (i j v : Nat) (hi : i < 4) (hj : j < 4)
    (h0 : c.getCell i j = 0) (hv : v ≠ 0) :
    (get_empty_cells (c.setCell i j v)).length + 1 = (get_empty_cells c).length ∧
    (occupied_cells (c.setCell i j v)).length = (occupied_cells c).length + 1 := by
  obtain ⟨⟨a0, a1, a2, a3⟩, ⟨b0, b1, b2, b3⟩, ⟨c0, c1, c2, c3⟩, ⟨d0, d1, d2, d3⟩⟩ := c
  have hzv : zeroInd v = 0 := by simp [zeroInd, hv]
  have hnv : nonzeroInd v = 1 := by simp [nonzeroInd, hv]
  interval_cases i <;> interval_cases j <;>
    · simp only [Cells.getCell, Cells.getRow, Row.get] at h0
      subst h0
      simp only [Cells.setCell, Cells.setRow, Cells.getRow, Row.set,
        get_empty_cells_length_eq, occupied_cells_length_eq, hzv, hnv]
      simp [zeroInd, nonzeroInd]
      omega

/-- Every coordinate pair produced by the loops is in range. -/
theorem allPairs_bounds : ∀ p ∈ allPairs, p.1 < 4 ∧ p.2 < 4 := by decide

/-- A board that is not full has at least one empty cell in the list. -/
theorem empty_cells_ne_nil (c : Cells) (h : is_board_full c = false) :
    get_empty_cells c ≠ [] := by
  intro hnil
  rw [get_empty_cells, List.filter_eq_nil_iff] at hnil
  have hall : ∀ p ∈ allPairs, c.getCell p.1 p.2 ≠ 0 := by
    intro p hp
    have := hnil p hp
    simpa using this
  obtain ⟨⟨a0, a1, a2, a3⟩, ⟨b0, b1, b2, b3⟩, ⟨c0, c1, c2, c3⟩, ⟨d0, d1, d2, d3⟩⟩ := c
  have hfull : is_board_full
      ⟨⟨a0, a1, a2, a3⟩, ⟨b0, b1, b2, b3⟩, ⟨c0, c1, c2, c3⟩, ⟨d0, d1, d2, d3⟩⟩ = true := by
    rw [is_board_full_iff]
    exact ⟨⟨hall (0, 0) (by decide), hall (0, 1) (by decide),
        hall (0, 2) (by decide), hall (0, 3) (by decide)⟩,
      ⟨hall (1, 0) (by decide), hall (1, 1) (by decide),
        hall (1, 2) (by decide), hall (1, 3) (by decide)⟩,
      ⟨hall (2, 0) (by decide), hall (2, 1) (by decide),
        hall (2, 2) (by decide), hall (2, 3) (by decide)⟩,
      ⟨hall (3, 0) (by decide), hall (3, 1) (by decide),
        hall (3, 2) (by decide), hall (3, 3) (by decide)⟩⟩
  rw [hfull] at h
  cases h

/-- On a full board, `insert_random_cell` is a no-op, whatever the draws. -/
theorem insert_random_cell_full (g : Grid) (roll : Bool) (choice : Nat)
    (h : is_board_full g.cells = true) : insert_random_cell g roll choice = g := by
  simp [insert_random_cell, h]

/-- On a non-full board, `insert_random_cell` writes value 2 (`roll = true`,
the probability-0.9 branch) or 4 (`roll = false`) into one currently-empty
in-range cell, and changes nothing else (in particular not the score). -/
theorem insert_random_cell_spawn (g : Grid) (roll : Bool) (choice : Nat)
    (h : is_board_full g.cells = false) :
    ∃ i j, i < 4 ∧ j < 4 ∧ g.cells.getCell i j = 0 ∧ (i, j) ∈ get_empty_cells g.cells ∧
      insert_random_cell g roll choice =
        ⟨g.cells.setCell i j (if roll then 2 else 4), g.score⟩ := by
  have hne : get_empty_cells g.cells ≠ [] := empty_cells_ne_nil g.cells h
  have hlen : 0 < (get_empty_cells g.cells).length := List.length_pos.mpr hne
  have hidx : choice % (get_empty_cells g.cells).length < (get_empty_cells g.cells).length :=
    Nat.mod_lt _ hlen
  have hpd : (get_empty_cells g.cells).getD (choice % (get_empty_cells g.cells).length) (0, 0) =
      (get_empty_cells g.cells)[choice % (get_empty_cells g.cells).length] :=
    List.getD_eq_getElem _ _ hidx
  have hmem : (get_empty_cells g.cells)[choice % (get_empty_cells g.cells).length] ∈
      get_empty_cells g.cells := List.getElem_mem hidx
  have hmem2 := List.mem_filter.mp hmem
  have hb := allPairs_bounds _ hmem2.1
  have h0 : g.cells.getCell
      ((get_empty_cells g.cells)[choice % (get_empty_cells g.cells).length]).1
      ((get_empty_cells g.cells)[choice % (get_empty_cells g.cells).length]).2 = 0 := by
    have := hmem2.2
    simpa using this
  refine ⟨_, _, hb.1, hb.2, h0, ?_, ?_⟩
  · simpa using hmem
  · simp only [insert_random_cell, h, Bool.false_eq_true, if_false, hpd]

/-! ### `attempt`-level lemmas -/

/-- `move_is_valid` unfolded to a proposition. -/
theorem move_is_valid_iff (g : Grid) (m : Move) :
    move_is_valid g m = true ↔ g.cells ≠ (make_move g.cells m).1 := by
  simp [move_is_valid]

/-- An invalid move is rejected with the grid unchanged. -/
theorem attempt_of_invalid (g : Grid) (m : Move) (roll : Bool) (choice : Nat)
    (h : move_is_valid g m = false) :
    attempt g m roll choice = (GameStatus.InvalidMove, g) := by
  simp [attempt, h]

/-- The grid after a valid move: commit the reduction, add the score delta,
insert one random tile. -/
theorem attempt_of_valid (g : Grid) (m : Move) (roll : Bool) (choice : Nat)
    (h : move_is_valid g m = true) :
    (attempt g m roll choice).2 =
      insert_random_cell ⟨(make_move g.cells m).1, g.score + (make_move g.cells m).2⟩
        roll choice := by
  simp only [attempt, h, Bool.not_true, Bool.false_eq_true, if_false]
  cases has_player_lost (insert_random_cell
      ⟨(make_move g.cells m).1, g.score + (make_move g.cells m).2⟩ roll choice) <;>
    simp

/-- A full board has no empty cell in the list. -/
theorem full_empty_length (c : Cells) (h : is_board_full c = true) :
    (get_empty_cells c).length = 0 := by
  rw [is_board_full_iff] at h
  obtain ⟨⟨a0, a1, a2, a3⟩, ⟨b0, b1, b2, b3⟩, ⟨c0, c1, c2, c3⟩, ⟨d0, d1, d2, d3⟩⟩ := c
  obtain ⟨⟨e0, e1, e2, e3⟩, ⟨f0, f1, f2, f3⟩, ⟨g0, g1, g2, g3⟩, ⟨k0, k1, k2, k3⟩⟩ := h
  rw [get_empty_cells_length_eq]
  simp [zeroInd, e0, e1, e2, e3, f0, f1, f2, f3, g0, g1, g2, g3, k0, k1, k2, k3]

/-- After a valid move the reduced board is never full (merging always frees
a cell, and pure sliding cannot fill a board), so a tile always spawns. -/
theorem make_move_not_full (g : Grid) (m : Move) (h : move_is_valid g m = true) :
    is_board_full (make_move g.cells m).1 = false := by
  cases hf : is_board_full (make_move g.cells m).1
  · rfl
  · exact absurd (make_move_of_full g.cells m hf).symm ((move_is_valid_iff g m).mp h)

/-- Sum effect of one `attempt` with a valid move: the board sum grows by
exactly the spawned tile value (2 on `roll = true`, else 4). -/
theorem attempt_sum_of_valid (g : Grid) (m : Move) (roll : Bool) (choice : Nat)
    (h : move_is_valid g m = true) :
    ((attempt g m roll choice).2).cells.sum = g.cells.sum + (if roll then 2 else 4) := by
  rw [attempt_of_valid g m roll choice h]
  have hf : is_board_full
      (Grid.mk (make_move g.cells m).1 (g.score + (make_move g.cells m).2)).cells = false :=
    make_move_not_full g m h
  obtain ⟨i, j, hi, hj, h0, hmem, heq⟩ := insert_random_cell_spawn _ roll choice hf
  rw [heq]
  dsimp only at h0 ⊢
  have hs := Cells.sum_setCell (make_move g.cells m).1 i j (if roll then 2 else 4) hi hj
  have hmv := make_move_sum g.cells m
  rw [h0] at hs
  omega

/-- `insert_random_cell` preserves a pointwise property holding of 2 and 4. -/
theorem insert_cellsAll (P : Nat → Prop) (h2 : P 2) (h4 : P 4) (g : Grid) (roll : Bool)
    (choice : Nat) (h : CellsAll P g.cells) :
    CellsAll P ((insert_random_cell g roll choice)).cells := by
  cases hf : is_board_full g.cells
  · obtain ⟨i, j, hi, hj, h0, hmem, heq⟩ := insert_random_cell_spawn g roll choice hf
    rw [heq]
    exact Cells.cellsAll_setCell P _ i j _ (by cases roll <;> simpa) h
  · rw [insert_random_cell_full g roll choice hf]
    exact h

/-- `attempt` preserves a pointwise property closed under 0, doubling, 2 and 4. -/
theorem attempt_cellsAll (P : Nat → Prop) (h0 : P 0) (hdbl : ∀ x, P x → P (x * 2))
    (h2 : P 2) (h4 : P 4) (g : Grid) (m : Move) (roll : Bool) (choice : Nat)
    (h : CellsAll P g.cells) : CellsAll P ((attempt g m roll choice).2).cells := by
  cases hv : move_is_valid g m
  · rw [attempt_of_invalid g m roll choice hv]
    exact h
  · rw [attempt_of_valid g m roll choice hv]
    exact insert_cellsAll P h2 h4 _ roll choice (make_move_cellsAll P h0 hdbl g.cells m h)

/-- A board with an empty cell on the list is not full. -/
theorem not_full_of_mem_empty (c : Cells) (p : Nat × Nat) (hp : p ∈ get_empty_cells c) :
    is_board_full c = false := by
  cases hf : is_board_full c
  · rfl
  · exfalso
    have hlen := full_empty_length c hf
    rw [List.length_eq_zero] at hlen
    rw [hlen] at hp
    cases hp

/-! ### Claim theorems -/

/-- C1: for every board, direction and outcome of the random draws, if the
full reduction of the board in that direction equals the board (a no-op
move), `attempt` returns the InvalidMove (RejectedNoOp) status and returns
the grid completely unchanged — same cells, same score, no tile spawned. -/
theorem C1_noop_move_rejected (g : Grid) (m : Move) (roll : Bool) (choice : Nat)
    (h : (make_move g.cells m).1 = g.cells) :
    attempt g m roll choice = (GameStatus.InvalidMove, g) := by
  apply attempt_of_invalid
  simp [move_is_valid, h]

/-- Witness for C1: the fully interleaved board is a no-op for `Right`, and
`attempt` rejects it leaving the grid (score 5 included) untouched. -/
theorem C1_noop_move_rejected_witness :
    (make_move ⟨⟨2, 4, 2, 4⟩, ⟨4, 2, 4, 2⟩, ⟨2, 4, 2, 4⟩, ⟨4, 2, 4, 2⟩⟩ Move.Right).1 =
        ⟨⟨2, 4, 2, 4⟩, ⟨4, 2, 4, 2⟩, ⟨2, 4, 2, 4⟩, ⟨4, 2, 4, 2⟩⟩ ∧
    attempt ⟨⟨⟨2, 4, 2, 4⟩, ⟨4, 2, 4, 2⟩, ⟨2, 4, 2, 4⟩, ⟨4, 2, 4, 2⟩⟩, 5⟩ Move.Right true 7 =
      (GameStatus.InvalidMove, ⟨⟨⟨2, 4, 2, 4⟩, ⟨4, 2, 4, 2⟩, ⟨2, 4, 2, 4⟩, ⟨4, 2, 4, 2⟩⟩, 5⟩) :=
  ⟨by decide,
    C1_noop_move_rejected ⟨⟨⟨2, 4, 2, 4⟩, ⟨4, 2, 4, 2⟩, ⟨2, 4, 2, 4⟩, ⟨4, 2, 4, 2⟩⟩, 5⟩
      Move.Right true 7 (by decide)⟩

/-- C2: reducing the row [2,2,2,2] rightward gives exactly [0,0,4,4] with a
score delta of 8, and not [0,0,0,8]: each tile merges at most once per move. -/
theorem C2_merge_cap :
    (mov ⟨⟨2, 2, 2, 2⟩, ⟨0, 0, 0, 0⟩, ⟨0, 0, 0, 0⟩, ⟨0, 0, 0, 0⟩⟩).1 =
        ⟨⟨0, 0, 4, 4⟩, ⟨0, 0, 0, 0⟩, ⟨0, 0, 0, 0⟩, ⟨0, 0, 0, 0⟩⟩ ∧
    (mov ⟨⟨2, 2, 2, 2⟩, ⟨0, 0, 0, 0⟩, ⟨0, 0, 0, 0⟩, ⟨0, 0, 0, 0⟩⟩).2 = 8 ∧
    (mov ⟨⟨2, 2, 2, 2⟩, ⟨0, 0, 0, 0⟩, ⟨0, 0, 0, 0⟩, ⟨0, 0, 0, 0⟩⟩).1.row0 ≠ ⟨0, 0, 0, 8⟩ := by
  decide

/-- C5: the fully interleaved board reports a lost game, and the reduction of
that board in each of the four directions is the board itself. -/
theorem C5_interleaved_board_stuck :
    has_player_lost (Grid.new ⟨⟨2, 4, 2, 4⟩, ⟨4, 2, 4, 2⟩, ⟨2, 4, 2, 4⟩, ⟨4, 2, 4, 2⟩⟩) = true ∧
    (make_move ⟨⟨2, 4, 2, 4⟩, ⟨4, 2, 4, 2⟩, ⟨2, 4, 2, 4⟩, ⟨4, 2, 4, 2⟩⟩ Move.Left).1 =
      ⟨⟨2, 4, 2, 4⟩, ⟨4, 2, 4, 2⟩, ⟨2, 4, 2, 4⟩, ⟨4, 2, 4, 2⟩⟩ ∧
    (make_move ⟨⟨2, 4, 2, 4⟩, ⟨4, 2, 4, 2⟩, ⟨2, 4, 2, 4⟩, ⟨4, 2, 4, 2⟩⟩ Move.Right).1 =
      ⟨⟨2, 4, 2, 4⟩, ⟨4, 2, 4, 2⟩, ⟨2, 4, 2, 4⟩, ⟨4, 2, 4, 2⟩⟩ ∧
    (make_move ⟨⟨2, 4, 2, 4⟩, ⟨4, 2, 4, 2⟩, ⟨2, 4, 2, 4⟩, ⟨4, 2, 4, 2⟩⟩ Move.Up).1 =
      ⟨⟨2, 4, 2, 4⟩, ⟨4, 2, 4, 2⟩, ⟨2, 4, 2, 4⟩, ⟨4, 2, 4, 2⟩⟩ ∧
    (make_move ⟨⟨2, 4, 2, 4⟩, ⟨4, 2, 4, 2⟩, ⟨2, 4, 2, 4⟩, ⟨4, 2, 4, 2⟩⟩ Move.Down).1 =
      ⟨⟨2, 4, 2, 4⟩, ⟨4, 2, 4, 2⟩, ⟨2, 4, 2, 4⟩, ⟨4, 2, 4, 2⟩⟩ := by
  decide

/-- C8: rotating any board four times is the identity, and rotating twice and
twice again equals rotating four times. -/
theorem C8_rotation_round_trip (c : Cells) :
    rotate_times c 4 = c ∧ rotate_times (rotate_times c 2) 2 = rotate_times c 4 := by
  refine ⟨rotate_times_four c, ?_⟩
  rw [← rotate_times_add]

/-- C9: the reduction is sum-preserving — for every board and direction the
16 cell values of `make_move` sum to the same total as the input board. -/
theorem C9_reduction_preserves_sum (c : Cells) (m : Move) :
    (make_move c m).1.sum = c.sum :=
  make_move_sum c m

/-- C10: the all-empty board is reported as stuck: no direction changes it,
even though it is not full and holds no tile at all. -/
theorem C10_empty_board_stuck :
    has_player_lost (Grid.new ⟨⟨0, 0, 0, 0⟩, ⟨0, 0, 0, 0⟩, ⟨0, 0, 0, 0⟩, ⟨0, 0, 0, 0⟩⟩) = true ∧
    is_board_full ⟨⟨0, 0, 0, 0⟩, ⟨0, 0, 0, 0⟩, ⟨0, 0, 0, 0⟩, ⟨0, 0, 0, 0⟩⟩ = false ∧
    (get_empty_cells ⟨⟨0, 0, 0, 0⟩, ⟨0, 0, 0, 0⟩, ⟨0, 0, 0, 0⟩, ⟨0, 0, 0, 0⟩⟩).length = 16 ∧
    (make_move ⟨⟨0, 0, 0, 0⟩, ⟨0, 0, 0, 0⟩, ⟨0, 0, 0, 0⟩, ⟨0, 0, 0, 0⟩⟩ Move.Left).1 =
      ⟨⟨0, 0, 0, 0⟩, ⟨0, 0, 0, 0⟩, ⟨0, 0, 0, 0⟩, ⟨0, 0, 0, 0⟩⟩ ∧
    (make_move ⟨⟨0, 0, 0, 0⟩, ⟨0, 0, 0, 0⟩, ⟨0, 0, 0, 0⟩, ⟨0, 0, 0, 0⟩⟩ Move.Right).1 =
      ⟨⟨0, 0, 0, 0⟩, ⟨0, 0, 0, 0⟩, ⟨0, 0, 0, 0⟩, ⟨0, 0, 0, 0⟩⟩ ∧
    (make_move ⟨⟨0, 0, 0, 0⟩, ⟨0, 0, 0, 0⟩, ⟨0, 0, 0, 0⟩, ⟨0, 0, 0, 0⟩⟩ Move.Up).1 =
      ⟨⟨0, 0, 0, 0⟩, ⟨0, 0, 0, 0⟩, ⟨0, 0, 0, 0⟩, ⟨0, 0, 0, 0⟩⟩ ∧
    (make_move ⟨⟨0, 0, 0, 0⟩, ⟨0, 0, 0, 0⟩, ⟨0, 0, 0, 0⟩, ⟨0, 0, 0, 0⟩⟩ Move.Down).1 =
      ⟨⟨0, 0, 0, 0⟩, ⟨0, 0, 0, 0⟩, ⟨0, 0, 0, 0⟩, ⟨0, 0, 0, 0⟩⟩ := by
  decide

/-- C3 counterexample: on the board with top row [2,2,0,0], move Right is
valid (it merges the two 2s for a gain of 4) and spawns a 2 (`roll = true`),
but the sum after the move is sum-before + 2, NOT
sum-before + merge-gain + 2 as the claim states: the merged pair is already
replaced on the board by its combined value, so adding the merge gain again
double-counts it. -/
theorem C3_counterexample :
    move_is_valid (Grid.new ⟨⟨2, 2, 0, 0⟩, ⟨0, 0, 0, 0⟩, ⟨0, 0, 0, 0⟩, ⟨0, 0, 0, 0⟩⟩)
        Move.Right = true ∧
    ¬ (((attempt (Grid.new ⟨⟨2, 2, 0, 0⟩, ⟨0, 0, 0, 0⟩, ⟨0, 0, 0, 0⟩, ⟨0, 0, 0, 0⟩⟩)
          Move.Right true 0).2).cells.sum =
        (Grid.new ⟨⟨2, 2, 0, 0⟩, ⟨0, 0, 0, 0⟩, ⟨0, 0, 0, 0⟩, ⟨0, 0, 0, 0⟩⟩).cells.sum +
        (make_move (Grid.new
            ⟨⟨2, 2, 0, 0⟩, ⟨0, 0, 0, 0⟩, ⟨0, 0, 0, 0⟩, ⟨0, 0, 0, 0⟩⟩).cells Move.Right).2 +
        2) := by
  decide

/-- C3 amended: for every board, accepted (valid) move and outcome of the
random draws, the sum of all cell values after the `attempt` equals the sum
before plus the value of the one spawned tile (2 on the probability-0.9
branch, else 4); merge gains are not added on top, because each merged pair
is already replaced on the board by the tile holding their sum. -/
theorem C3_mass_conservation_amended (g : Grid) (m : Move) (roll : Bool) (choice : Nat)
    (h : move_is_valid g m = true) :
    ((attempt g m roll choice).2).cells.sum = g.cells.sum + (if roll then 2 else 4) :=
  attempt_sum_of_valid g m roll choice h

/-- Witness for the amended C3 at a concrete accepted move. -/
theorem C3_mass_conservation_amended_witness :
    move_is_valid (Grid.new ⟨⟨2, 2, 0, 0⟩, ⟨0, 0, 0, 0⟩, ⟨0, 0, 0, 0⟩, ⟨0, 0, 0, 0⟩⟩)
        Move.Right = true ∧
    ((attempt (Grid.new ⟨⟨2, 2, 0, 0⟩, ⟨0, 0, 0, 0⟩, ⟨0, 0, 0, 0⟩, ⟨0, 0, 0, 0⟩⟩)
        Move.Right true 0).2).cells.sum =
      (Grid.new ⟨⟨2, 2, 0, 0⟩, ⟨0, 0, 0, 0⟩, ⟨0, 0, 0, 0⟩, ⟨0, 0, 0, 0⟩⟩).cells.sum + 2 :=
  ⟨by decide,
    C3_mass_conservation_amended
      (Grid.new ⟨⟨2, 2, 0, 0⟩, ⟨0, 0, 0, 0⟩, ⟨0, 0, 0, 0⟩, ⟨0, 0, 0, 0⟩⟩)
      Move.Right true 0 (by decide)⟩

/-- C4: every grid reachable from `new_random` by `attempt` calls, under any
outcomes of the random draws, holds only cells that are empty or a power of
two `2 ^ k` with `k ≥ 1`. -/
theorem C4_power_of_two_invariant (g : Grid) (h : Reachable g) :
    CellsAll (fun v => v ≠ 0 → ∃ k, 1 ≤ k ∧ v = 2 ^ k) g.cells := by
  have h0 : (fun v : Nat => v ≠ 0 → ∃ k, 1 ≤ k ∧ v = 2 ^ k) 0 := fun hv => absurd rfl hv
  have h2 : (fun v : Nat => v ≠ 0 → ∃ k, 1 ≤ k ∧ v = 2 ^ k) 2 :=
    fun _ => ⟨1, Nat.le_refl 1, by norm_num⟩
  have h4 : (fun v : Nat => v ≠ 0 → ∃ k, 1 ≤ k ∧ v = 2 ^ k) 4 :=
    fun _ => ⟨2, by omega, by norm_num⟩
  have hdbl : ∀ x, (fun v : Nat => v ≠ 0 → ∃ k, 1 ≤ k ∧ v = 2 ^ k) x →
      (fun v : Nat => v ≠ 0 → ∃ k, 1 ≤ k ∧ v = 2 ^ k) (x * 2) := by
    intro x hx hne
    have hxne : x ≠ 0 := by
      intro hx0
      rw [hx0] at hne
      exact hne rfl
    obtain ⟨k, hk, hxe⟩ := hx hxne
    refine ⟨k + 1, by omega, ?_⟩
    rw [hxe, pow_succ]
  induction h with
  | init r1 c1 r2 c2 =>
      simp only [new_random]
      refine insert_cellsAll _ h2 h4 _ r2 c2 (insert_cellsAll _ h2 h4 _ r1 c1 ?_)
      exact ⟨⟨h0, h0, h0, h0⟩, ⟨h0, h0, h0, h0⟩, ⟨h0, h0, h0, h0⟩, ⟨h0, h0, h0, h0⟩⟩
  | step g m roll choice hg ih => exact attempt_cellsAll _ h0 hdbl h2 h4 g m roll choice ih

/-- Witness for C4 at a concrete initial grid. -/
theorem C4_power_of_two_invariant_witness :
    CellsAll (fun v => v ≠ 0 → ∃ k, 1 ≤ k ∧ v = 2 ^ k) (new_random true 0 true 0).cells :=
  C4_power_of_two_invariant (new_random true 0 true 0) (Reachable.init true 0 true 0)

/-- C6: whatever the outcomes of the four random draws, `new_random` yields
a grid with exactly 14 empty cells, exactly 2 occupied cells, every cell
empty or valued 2 or 4, and score 0. -/
theorem C6_new_random_spec (r1 : Bool) (c1 : Nat) (r2 : Bool) (c2 : Nat) :
    (get_empty_cells (new_random r1 c1 r2 c2).cells).length = 14 ∧
    (occupied_cells (new_random r1 c1 r2 c2).cells).length = 2 ∧
    CellsAll (fun v => v = 0 ∨ v = 2 ∨ v = 4) (new_random r1 c1 r2 c2).cells ∧
    (new_random r1 c1 r2 c2).score = 0 := by
  have h0full : is_board_full (Grid.new
      ⟨⟨0, 0, 0, 0⟩, ⟨0, 0, 0, 0⟩, ⟨0, 0, 0, 0⟩, ⟨0, 0, 0, 0⟩⟩).cells = false := rfl
  obtain ⟨i1, j1, hi1, hj1, hz1, hm1, he1⟩ := insert_random_cell_spawn _ r1 c1 h0full
  have hv1 : (if r1 then 2 else 4 : Nat) ≠ 0 := by cases r1 <;> simp
  dsimp only [Grid.new] at he1 hz1
  have hc1 := counts_setCell _ i1 j1 _ hi1 hj1 hz1 hv1
  have hb1 : (get_empty_cells ⟨⟨0, 0, 0, 0⟩, ⟨0, 0, 0, 0⟩, ⟨0, 0, 0, 0⟩, ⟨0, 0, 0, 0⟩⟩).length
      = 16 := rfl
  have hb1o : (occupied_cells ⟨⟨0, 0, 0, 0⟩, ⟨0, 0, 0, 0⟩, ⟨0, 0, 0, 0⟩, ⟨0, 0, 0, 0⟩⟩).length
      = 0 := rfl
  have hf1 : is_board_full
      ((⟨⟨0, 0, 0, 0⟩, ⟨0, 0, 0, 0⟩, ⟨0, 0, 0, 0⟩, ⟨0, 0, 0, 0⟩⟩ : Cells).setCell i1 j1
        (if r1 then 2 else 4)) = false := by
    cases hb : is_board_full
        ((⟨⟨0, 0, 0, 0⟩, ⟨0, 0, 0, 0⟩, ⟨0, 0, 0, 0⟩, ⟨0, 0, 0, 0⟩⟩ : Cells).setCell i1 j1
          (if r1 then 2 else 4))
    · rfl
    · have := full_empty_length _ hb
      omega
  obtain ⟨i2, j2, hi2, hj2, hz2, hm2, he2⟩ := insert_random_cell_spawn
    ⟨(⟨⟨0, 0, 0, 0⟩, ⟨0, 0, 0, 0⟩, ⟨0, 0, 0, 0⟩, ⟨0, 0, 0, 0⟩⟩ : Cells).setCell i1 j1
      (if r1 then 2 else 4), 0⟩ r2 c2 hf1
  have hv2 : (if r2 then 2 else 4 : Nat) ≠ 0 := by cases r2 <;> simp
  dsimp only at he2 hz2
  have hc2 := counts_setCell _ i2 j2 _ hi2 hj2 hz2 hv2
  have he : new_random r1 c1 r2 c2 =
      ⟨((⟨⟨0, 0, 0, 0⟩, ⟨0, 0, 0, 0⟩, ⟨0, 0, 0, 0⟩, ⟨0, 0, 0, 0⟩⟩ : Cells).setCell i1 j1
          (if r1 then 2 else 4)).setCell i2 j2 (if r2 then 2 else 4), 0⟩ := by
    simp only [new_random, Grid.new]
    rw [he1, he2]
  rw [he]
  dsimp only
  refine ⟨by omega, by omega, ?_, rfl⟩
  have hP0 : CellsAll (fun v => v = 0 ∨ v = 2 ∨ v = 4)
      ⟨⟨0, 0, 0, 0⟩, ⟨0, 0, 0, 0⟩, ⟨0, 0, 0, 0⟩, ⟨0, 0, 0, 0⟩⟩ := by
    refine ⟨⟨?_, ?_, ?_, ?_⟩, ⟨?_, ?_, ?_, ?_⟩, ⟨?_, ?_, ?_, ?_⟩, ⟨?_, ?_, ?_, ?_⟩⟩ <;>
      exact Or.inl rfl
  refine Cells.cellsAll_setCell _ _ i2 j2 _ ?_ (Cells.cellsAll_setCell _ _ i1 j1 _ ?_ hP0)
  · cases r2 <;> simp
  · cases r1 <;> simp

/-- C7: `insert_random_cell` on a full board is a no-op; on a non-full board,
for every outcome of the draws it writes 2 (`roll = true`, the
probability-0.9 branch of the Bernoulli draw) or 4 (`roll = false`) into one
currently-empty cell, leaving every other cell and the score unchanged; and
every empty cell is reachable by some outcome of the position draw. -/
theorem C7_insert_random_cell_spec (g : Grid) (roll : Bool) (choice : Nat) :
    (is_board_full g.cells = true → insert_random_cell g roll choice = g) ∧
    (is_board_full g.cells = false →
      ∃ i j, i < 4 ∧ j < 4 ∧ g.cells.getCell i j = 0 ∧ (i, j) ∈ get_empty_cells g.cells ∧
        insert_random_cell g roll choice =
          ⟨g.cells.setCell i j (if roll then 2 else 4), g.score⟩ ∧
        ∀ i' j', i' < 4 → j' < 4 → ¬(i = i' ∧ j = j') →
          (insert_random_cell g roll choice).cells.getCell i' j' = g.cells.getCell i' j') ∧
    ∀ p ∈ get_empty_cells g.cells, ∃ ch,
      insert_random_cell g roll ch =
        ⟨g.cells.setCell p.1 p.2 (if roll then 2 else 4), g.score⟩ := by
  refine ⟨fun hf => insert_random_cell_full g roll choice hf, fun hf => ?_, fun p hp => ?_⟩
  · obtain ⟨i, j, hi, hj, h0, hmem, heq⟩ := insert_random_cell_spawn g roll choice hf
    refine ⟨i, j, hi, hj, h0, hmem, heq, fun i' j' hi' hj' hne => ?_⟩
    rw [heq]
    dsimp only
    rw [Cells.getCell_setCell g.cells i j i' j' _ hi hj hi' hj', if_neg hne]
  · have hf : is_board_full g.cells = false := not_full_of_mem_empty g.cells p hp
    obtain ⟨n, hn⟩ := List.get_of_mem hp
    obtain ⟨idx, hlt⟩ := n
    have hg : (get_empty_cells g.cells)[idx] = p := hn
    refine ⟨idx, ?_⟩
    have hmod : idx % (get_empty_cells g.cells).length = idx := Nat.mod_eq_of_lt hlt
    simp only [insert_random_cell, hf, Bool.false_eq_true, if_false, hmod]
    rw [List.getD_eq_getElem _ _ hlt, hg]

/-- Witness for C7: a full board is untouched, and on the empty board the
insertion writes a 2 into one empty cell. -/
theorem C7_insert_random_cell_spec_witness :
    insert_random_cell
        ⟨⟨⟨2, 4, 2, 4⟩, ⟨4, 2, 4, 2⟩, ⟨2, 4, 2, 4⟩, ⟨4, 2, 4, 2⟩⟩, 9⟩ true 3 =
      ⟨⟨⟨2, 4, 2, 4⟩, ⟨4, 2, 4, 2⟩, ⟨2, 4, 2, 4⟩, ⟨4, 2, 4, 2⟩⟩, 9⟩ ∧
    (∃ i j, i < 4 ∧ j < 4 ∧
      (⟨⟨0, 0, 0, 0⟩, ⟨0, 0, 0, 0⟩, ⟨0, 0, 0, 0⟩, ⟨0, 0, 0, 0⟩⟩ : Cells).getCell i j = 0 ∧
      (i, j) ∈ get_empty_cells ⟨⟨0, 0, 0, 0⟩, ⟨0, 0, 0, 0⟩, ⟨0, 0, 0, 0⟩, ⟨0, 0, 0, 0⟩⟩ ∧
      insert_random_cell ⟨⟨⟨0, 0, 0, 0⟩, ⟨0, 0, 0, 0⟩, ⟨0, 0, 0, 0⟩, ⟨0, 0, 0, 0⟩⟩, 0⟩ true 5 =
        ⟨(⟨⟨0, 0, 0, 0⟩, ⟨0, 0, 0, 0⟩, ⟨0, 0, 0, 0⟩, ⟨0, 0, 0, 0⟩⟩ : Cells).setCell i j
          (if true then 2 else 4), 0⟩ ∧
      ∀ i' j', i' < 4 → j' < 4 → ¬(i = i' ∧ j = j') →
        (insert_random_cell
            ⟨⟨⟨0, 0, 0, 0⟩, ⟨0, 0, 0, 0⟩, ⟨0, 0, 0, 0⟩, ⟨0, 0, 0, 0⟩⟩, 0⟩ true 5).cells.getCell
            i' j' =
          (⟨⟨0, 0, 0, 0⟩, ⟨0, 0, 0, 0⟩, ⟨0, 0, 0, 0⟩, ⟨0, 0, 0, 0⟩⟩ : Cells).getCell i' j') :=
  ⟨(C7_insert_random_cell_spec
      ⟨⟨⟨2, 4, 2, 4⟩, ⟨4, 2, 4, 2⟩, ⟨2, 4, 2, 4⟩, ⟨4, 2, 4, 2⟩⟩, 9⟩ true 3).1 (by decide),
    (C7_insert_random_cell_spec
      ⟨⟨⟨0, 0, 0, 0⟩, ⟨0, 0, 0, 0⟩, ⟨0, 0, 0, 0⟩, ⟨0, 0, 0, 0⟩⟩, 0⟩ true 5).2.1 (by decide)⟩

end Rocket2048
